import Mathlib

/-!
Shallow embedding of the rbac_system Anchor program
(src/programs/rbac_system/src/lib.rs) and verification of its
specification claims.

The on-chain account model is embedded as a state record holding the
optional RbacState singleton (PDA seed "rbac_state"), a role store keyed
by role name (PDA seeds ["role", name]) and an assignment store keyed by
user identity (PDA seeds ["user_role", user]).  Each instruction is a
function from the pre-state and its arguments to either an error or the
post-state together with the emitted events; the Anchor account
constraints (account existence, init key conflicts, has_one, close) are
part of each instruction because the runtime enforces them before the
instruction body runs.  Public keys are opaque equality-comparable
identities, embedded as Nat.
-/

namespace Rbac

/-- Identity embeds Solana Pubkey: an opaque, equality-comparable
principal identifier. -/
abbrev Identity := Nat

/-- Permission enum from the source (Read, Create, Update, Delete,
Admin). -/
inductive Permission where
  | Read
  | Create
  | Update
  | Delete
  | Admin
deriving DecidableEq

/-- Action enum from the source (CreateResource, ReadResource,
UpdateResource, DeleteResource, AdminOperation). -/
inductive Action where
  | CreateResource
  | ReadResource
  | UpdateResource
  | DeleteResource
  | AdminOperation
deriving DecidableEq

/-- Custom error codes declared by the program (error_code enum
RbacError in the source). -/
inductive RbacError where
  | RoleNameTooLong
  | RoleNotFound
  | UserRoleMismatch
  | PermissionDenied
  | NotAuthorized
deriving DecidableEq

/-- Errors an instruction can surface: either one of the program's
custom RbacError codes, or an error raised by the Anchor account
constraints before the instruction body runs.  accountMissing is the
runtime error for a required PDA account that does not exist;
accountAlreadyInUse is the key-conflict error for init on an existing
account; constraintHasOne is the violation of the has_one = admin
constraint on CreateRole. -/
inductive ProgError where
  | rbac (e : RbacError)
  | accountMissing
  | accountAlreadyInUse
  | constraintHasOne
deriving DecidableEq

/-- RbacState account: admin pubkey and the two u32 counters.  The bump
byte is storage layout and carries no program logic, so it is omitted. -/
structure RbacState where
  admin : Identity
  role_count : Nat
  user_count : Nat
deriving DecidableEq

/-- Role account: name, permission vector and creation timestamp (bump
omitted as layout-only). -/
structure Role where
  name : String
  permissions : List Permission
  created_at : Int
deriving DecidableEq

/-- UserRole account: user, assigned role name, timestamp and assigner
(bump omitted as layout-only). -/
structure UserRole where
  user : Identity
  role : String
  assigned_at : Int
  assigned_by : Identity
deriving DecidableEq

/-- Events emitted by the program, one constructor per event struct in
the source. -/
inductive Event where
  | RbacStarted (admin : Identity) (timestamp : Int)
  | RoleCreated (name : String) (permissions : List Permission) (timestamp : Int)
  | RoleAssigned (user : Identity) (role : String) (assigned_by : Identity) (timestamp : Int)
  | PermissionChecked (user : Identity) (permission : Permission) (result : Bool) (timestamp : Int)
  | RoleRevoked (user : Identity) (revoked_by : Identity) (timestamp : Int)
  | ActionExecuted (user : Identity) (action : Action) (permission : Permission) (timestamp : Int)
deriving DecidableEq

/-- Global on-chain state visible to this program: the optional
RbacState singleton, the role store keyed by role name (the PDA seed
string), and the assignment store keyed by user identity (the PDA seed
pubkey). -/
structure Chain where
  rbac : Option RbacState
  roles : String → Option Role
  userRoles : Identity → Option UserRole

/-- State before the program has ever run: no account exists. -/
def emptyChain : Chain :=
  { rbac := none, roles := fun _ => none, userRoles := fun _ => none }

/-- Wrap of the u32 counter arithmetic used for role_count and
user_count. -/
def u32wrap (n : Nat) : Nat := n % 4294967296

/-- Instruction initialize (renamed because initialize is a Lean
keyword): init of the rbac_state PDA fails if it already exists;
otherwise admin is set to the caller, role_count is set to 0 then
immediately overwritten with 1 (the "Create admin role automatically"
seed in the source), user_count is set to 0, and RbacInitialized is
emitted (constructor RbacStarted here). -/
def initRbac (s : Chain) (caller : Identity) (now : Int) :
    Except ProgError (Chain × List Event) :=
  match s.rbac with
  | some _ => .error .accountAlreadyInUse
  | none =>
    let st0 : RbacState := { admin := caller, role_count := 0, user_count := 0 }
    let st : RbacState := { st0 with role_count := 1 }
    .ok ({ s with rbac := some st }, [Event.RbacStarted caller now])

/-- Instruction create_role.  Account validation first: rbac_state must
exist, its has_one = admin constraint requires the signing caller to
equal the stored admin, and init of the role PDA at seeds
["role", role_name] fails on key conflict.  The body then checks
role_name.len() <= 32 (Rust String::len counts UTF-8 bytes), writes the
Role record and increments role_count, emitting RoleCreated. -/
def create_role (s : Chain) (caller : Identity) (role_name : String)
    (permissions : List Permission) (now : Int) :
    Except ProgError (Chain × List Event) :=
  match s.rbac with
  | none => .error .accountMissing
  | some st =>
    if caller ≠ st.admin then .error .constraintHasOne
    else match s.roles role_name with
    | some _ => .error .accountAlreadyInUse
    | none =>
      if ¬ (role_name.utf8ByteSize ≤ 32) then .error (.rbac .RoleNameTooLong)
      else
        let role : Role :=
          { name := role_name, permissions := permissions, created_at := now }
        let st' : RbacState := { st with role_count := u32wrap (st.role_count + 1) }
        .ok ({ s with
                rbac := some st',
                roles := fun n => if n = role_name then some role else s.roles n },
             [Event.RoleCreated role.name role.permissions role.created_at])

/-- Instruction assign_role.  Account validation: rbac_state must exist,
the role PDA at seeds ["role", role_name] must exist, and init of the
user_role PDA at seeds ["user_role", user] fails on key conflict.  The
body re-checks role.name == role_name (RoleNotFound otherwise), writes
the UserRole record, increments user_count and emits RoleAssigned.  Any
signer may call this: no admin constraint exists on AssignRole. -/
def assign_role (s : Chain) (caller : Identity) (user : Identity)
    (role_name : String) (now : Int) :
    Except ProgError (Chain × List Event) :=
  match s.rbac with
  | none => .error .accountMissing
  | some st =>
    match s.roles role_name with
    | none => .error .accountMissing
    | some role =>
      match s.userRoles user with
      | some _ => .error .accountAlreadyInUse
      | none =>
        if role.name ≠ role_name then .error (.rbac .RoleNotFound)
        else
          let ur : UserRole :=
            { user := user, role := role_name, assigned_at := now, assigned_by := caller }
          let st' : RbacState := { st with user_count := u32wrap (st.user_count + 1) }
          .ok ({ s with
                  rbac := some st',
                  userRoles := fun v => if v = user then some ur else s.userRoles v },
               [Event.RoleAssigned user role_name caller now])

/-- Instruction check_permission.  The CheckPermission account struct
keys the user_role PDA by the user stored inside the account itself
(seeds ["user_role", user_role.user]), so the caller chooses which
assignment record to pass; targetUser names that record's key.  The role
PDA is keyed by the assignment's stored role string.  The body requires
user_role.role == role.name (UserRoleMismatch otherwise), computes
membership of the permission in the role's permission vector, emits
PermissionChecked carrying the user argument and the result, and returns
the result.  No account is mutable, so the chain is unchanged. -/
def check_permission (s : Chain) (targetUser : Identity) (user : Identity)
    (permission : Permission) (now : Int) :
    Except ProgError (Chain × List Event × Bool) :=
  match s.userRoles targetUser with
  | none => .error .accountMissing
  | some ur =>
    match s.roles ur.role with
    | none => .error .accountMissing
    | some role =>
      if ur.role ≠ role.name then .error (.rbac .UserRoleMismatch)
      else
        let has_permission := role.permissions.contains permission
        .ok (s, [Event.PermissionChecked user permission has_permission now],
             has_permission)

/-- Result-only view of check_permission: the post-state and the
returned boolean, dropping the emitted event.  Used to state that the
decision does not depend on the user argument. -/
def check_permission_result (s : Chain) (targetUser : Identity)
    (user : Identity) (permission : Permission) (now : Int) :
    Except ProgError (Chain × Bool) :=
  (check_permission s targetUser user permission now).map
    (fun r => (r.1, r.2.2))

/-- Instruction revoke_role.  Account validation: the user_role PDA at
seeds ["user_role", user] must exist; the close = authority constraint
deletes it and returns its backing lamports to the signing caller (the
returned Identity records that recipient).  The body only emits
RoleRevoked.  RevokeRole carries no rbac_state account, so no counter
can change, and no admin check is performed. -/
def revoke_role (s : Chain) (caller : Identity) (user : Identity) (now : Int) :
    Except ProgError (Chain × List Event × Identity) :=
  match s.userRoles user with
  | none => .error .accountMissing
  | some _ =>
    .ok ({ s with userRoles := fun v => if v = user then none else s.userRoles v },
         [Event.RoleRevoked user caller now], caller)

/-- Static action to permission table from the source match in
execute_action. -/
def requiredPermission : Action → Permission
  | .CreateResource => .Create
  | .ReadResource => .Read
  | .UpdateResource => .Update
  | .DeleteResource => .Delete
  | .AdminOperation => .Admin

/-- Instruction execute_action.  Account validation: rbac_state must
exist, the user_role PDA is keyed by the signing caller, and the role
PDA by the assignment's stored role string.  The body requires
user_role.role == role.name (UserRoleMismatch), maps the action to its
required permission through the static table, requires membership in the
role's permission vector (PermissionDenied otherwise) and emits
ActionExecuted.  No account is mutable, so the chain is unchanged. -/
def execute_action (s : Chain) (caller : Identity) (action : Action) (now : Int) :
    Except ProgError (Chain × List Event) :=
  match s.rbac with
  | none => .error .accountMissing
  | some _ =>
    match s.userRoles caller with
    | none => .error .accountMissing
    | some ur =>
      match s.roles ur.role with
      | none => .error .accountMissing
      | some role =>
        if ur.role ≠ role.name then .error (.rbac .UserRoleMismatch)
        else
          let rp := requiredPermission action
          if role.permissions.contains rp then
            .ok (s, [Event.ActionExecuted caller action rp now])
          else .error (.rbac .PermissionDenied)

/-- Single program step: some instruction ran successfully and took the
chain from s to s'. -/
inductive Step : Chain → Chain → Prop where
  | initStep (s s' : Chain) (c : Identity) (now : Int) (evs : List Event) :
      initRbac s c now = .ok (s', evs) → Step s s'
  | createRole (s s' : Chain) (c : Identity) (n : String)
      (ps : List Permission) (now : Int) (evs : List Event) :
      create_role s c n ps now = .ok (s', evs) → Step s s'
  | assignRole (s s' : Chain) (c u : Identity) (n : String) (now : Int)
      (evs : List Event) :
      assign_role s c u n now = .ok (s', evs) → Step s s'
  | checkPermission (s s' : Chain) (tu u : Identity) (p : Permission)
      (now : Int) (evs : List Event) (b : Bool) :
      check_permission s tu u p now = .ok (s', evs, b) → Step s s'
  | revokeRole (s s' : Chain) (c u : Identity) (now : Int)
      (evs : List Event) (r : Identity) :
      revoke_role s c u now = .ok (s', evs, r) → Step s s'
  | executeAction (s s' : Chain) (c : Identity) (a : Action) (now : Int)
      (evs : List Event) :
      execute_action s c a now = .ok (s', evs) → Step s s'

/-- States reachable from the uninitialized chain through successful
instructions. -/
inductive Reachable : Chain → Prop where
  | start : Reachable emptyChain
  | step {s s' : Chain} : Reachable s → Step s s' → Reachable s'

/-- Demo role used for concrete witnesses: the moderator role of the
spec's end-to-end scenario. -/
def demoRole : Role :=
  { name := "moderator", permissions := [.Read, .Update], created_at := 0 }

/-- Demo assignment: user 5 holds the moderator role, assigned by the
admin (identity 1). -/
def demoUR : UserRole :=
  { user := 5, role := "moderator", assigned_at := 0, assigned_by := 1 }

/-- Demo chain for concrete witnesses: admin 1, one role, one
assignment. -/
def demoChain : Chain :=
  { rbac := some { admin := 1, role_count := 2, user_count := 1 },
    roles := fun n => if n = "moderator" then some demoRole else none,
    userRoles := fun u => if u = 5 then some demoUR else none }

/-- Name of exactly 33 ASCII characters, hence 33 UTF-8 bytes. -/
def longName : String := String.mk (List.replicate 33 'a')

/-- Name of exactly 32 ASCII characters, hence 32 UTF-8 bytes. -/
def name32 : String := String.mk (List.replicate 32 'a')

/-- C1: for a user u whose assignment names an existing role whose
stored name matches the assignment's role string, check_permission
returns exactly the membership of the queried permission in the role's
stored permission vector, and that boolean is true iff the permission is
a member of the vector (duplicates irrelevant, since only list
membership is tested). -/
theorem checkPermission_decides_membership (s : Chain) (u : Identity)
    (p : Permission) (now : Int) (ur : UserRole) (role : Role)
    (hur : s.userRoles u = some ur) (hrole : s.roles ur.role = some role)
    (hname : ur.role = role.name) :
    check_permission s u u p now =
      .ok (s, [Event.PermissionChecked u p (role.permissions.contains p) now],
           role.permissions.contains p) ∧
    (role.permissions.contains p = true ↔ p ∈ role.permissions) := by
  have hrole' : s.roles role.name = some role := by rw [← hname]; exact hrole
  constructor
  · simp [check_permission, hur, hname, hrole']
  · simp

/-- C1 witness: concrete run on the demo chain, user 5 holding the
moderator role, querying Update. -/
theorem checkPermission_decides_membership_witness :
    check_permission demoChain 5 5 .Update 0 =
      .ok (demoChain,
           [Event.PermissionChecked 5 .Update (demoRole.permissions.contains .Update) 0],
           demoRole.permissions.contains .Update) ∧
    (demoRole.permissions.contains .Update = true ↔
      Permission.Update ∈ demoRole.permissions) :=
  checkPermission_decides_membership demoChain 5 .Update 0 demoUR demoRole
    rfl rfl rfl

/-- C2: when the rbac_state exists and the caller has an assignment
whose role record exists and is name-consistent, execute_action
succeeds, emitting the ActionExecuted event with the table-derived
permission, iff that permission is a member of the role's permission
vector, and fails with PermissionDenied otherwise; the action to
permission table is exactly the static one of the source. -/
theorem executeAction_permission_gate (s : Chain) (st : RbacState)
    (caller : Identity) (a : Action) (now : Int) (ur : UserRole) (role : Role)
    (hst : s.rbac = some st) (hur : s.userRoles caller = some ur)
    (hrole : s.roles ur.role = some role) (hname : ur.role = role.name) :
    (requiredPermission .CreateResource = .Create ∧
     requiredPermission .ReadResource = .Read ∧
     requiredPermission .UpdateResource = .Update ∧
     requiredPermission .DeleteResource = .Delete ∧
     requiredPermission .AdminOperation = .Admin) ∧
    (execute_action s caller a now =
        .ok (s, [Event.ActionExecuted caller a (requiredPermission a) now]) ↔
      requiredPermission a ∈ role.permissions) ∧
    (requiredPermission a ∉ role.permissions →
      execute_action s caller a now = .error (.rbac .PermissionDenied)) := by
  have hrole' : s.roles role.name = some role := by rw [← hname]; exact hrole
  refine ⟨⟨rfl, rfl, rfl, rfl, rfl⟩, ?_, ?_⟩ <;>
    by_cases hm : requiredPermission a ∈ role.permissions <;>
      simp [execute_action, hst, hur, hname, hrole', hm]

/-- C2 witness: concrete run on the demo chain, user 5 holding the
moderator role, attempting DeleteResource (denied: moderator lacks
Delete). -/
theorem executeAction_permission_gate_witness :
    ((requiredPermission .CreateResource = .Create ∧
      requiredPermission .ReadResource = .Read ∧
      requiredPermission .UpdateResource = .Update ∧
      requiredPermission .DeleteResource = .Delete ∧
      requiredPermission .AdminOperation = .Admin) ∧
     (execute_action demoChain 5 .DeleteResource 0 =
         .ok (demoChain,
              [Event.ActionExecuted 5 .DeleteResource
                (requiredPermission .DeleteResource) 0]) ↔
       requiredPermission .DeleteResource ∈ demoRole.permissions) ∧
     (requiredPermission .DeleteResource ∉ demoRole.permissions →
       execute_action demoChain 5 .DeleteResource 0 =
         .error (.rbac .PermissionDenied))) :=
  executeAction_permission_gate demoChain
    { admin := 1, role_count := 2, user_count := 1 } 5 .DeleteResource 0
    demoUR demoRole rfl rfl rfl rfl

/-- C3 counterexample: on the demo chain, whose admin is identity 1, a
create_role call by identity 2 fails with the has_one account-constraint
violation, not with the declared RbacError NotAuthorized, which no path
of the program ever returns. -/
theorem createRole_notAuthorized_counterexample :
    create_role demoChain 2 "editor" [] 0 = .error .constraintHasOne ∧
    create_role demoChain 2 "editor" [] 0 ≠ .error (.rbac .NotAuthorized) := by
  constructor <;> simp [create_role, demoChain]

/-- C3 amended: for every caller different from the stored admin,
create_role fails with the has_one account-constraint error (the role
store and role_count are untouched, since a failing instruction returns
no post-state). -/
theorem createRole_nonadmin_rejected (s : Chain) (st : RbacState)
    (caller : Identity) (n : String) (ps : List Permission) (now : Int)
    (hst : s.rbac = some st) (hc : caller ≠ st.admin) :
    create_role s caller n ps now = .error .constraintHasOne := by
  simp [create_role, hst, hc]

/-- C3 witness: concrete rejected call by non-admin identity 2 on the
demo chain. -/
theorem createRole_nonadmin_rejected_witness :
    create_role demoChain 2 "observer" [] 0 = .error .constraintHasOne :=
  createRole_nonadmin_rejected demoChain
    { admin := 1, role_count := 2, user_count := 1 } 2 "observer" [] 0
    rfl (by decide)

/-- C4 counterexample: a successful run of the initialization
instruction from the empty chain leaves role_count = 1, not 0: the body
seeds the counter to 1 after setting it to 0. -/
theorem initRbac_roleCount_counterexample :
    (initRbac emptyChain 7 0).map (fun r => r.1.rbac) =
      .ok (some { admin := 7, role_count := 1, user_count := 0 }) ∧
    (initRbac emptyChain 7 0).map (fun r => r.1.rbac) ≠
      .ok (some { admin := 7, role_count := 0, user_count := 0 }) := by
  constructor <;> simp [initRbac, emptyChain, Except.map]

/-- C4 amended: a successful initialization creates the singleton with
admin = caller, role_count = 1 (seeded by the automatic pre-increment in
the body) and user_count = 0, and the instruction fails with the
account-already-in-use error when the singleton already exists. -/
theorem initRbac_spec (s : Chain) (caller : Identity) (now : Int) :
    (s.rbac = none →
      initRbac s caller now =
        .ok ({ s with
                rbac := some { admin := caller, role_count := 1, user_count := 0 } },
             [Event.RbacStarted caller now])) ∧
    (∀ st, s.rbac = some st →
      initRbac s caller now = .error .accountAlreadyInUse) := by
  constructor
  · intro h
    simp [initRbac, h]
  · intro st h
    simp [initRbac, h]

/-- C4 witness: concrete successful initialization from the empty chain
by identity 7. -/
theorem initRbac_spec_witness :
    initRbac emptyChain 7 0 =
      .ok ({ emptyChain with
              rbac := some { admin := 7, role_count := 1, user_count := 0 } },
           [Event.RbacStarted 7 0]) :=
  (initRbac_spec emptyChain 7 0).1 rfl

/-- C5: per-key uniqueness of roles and assignments.  Both stores are
keyed (roles by name, assignments by user identity, mirroring the PDA
seed derivation), so at most one record per key is structural; the
operational content is that create_role on an occupied name key and
assign_role on an occupied user key fail with the key-conflict
(account-already-in-use) error of the init constraint, and a failing
instruction returns no post-state, so nothing changes. -/
theorem uniqueness_key_conflicts (s : Chain) (st : RbacState)
    (caller user : Identity) (n : String) (ps : List Permission) (now : Int)
    (hst : s.rbac = some st) :
    (∀ r, s.roles n = some r → caller = st.admin →
      create_role s caller n ps now = .error .accountAlreadyInUse) ∧
    (∀ role ur, s.roles n = some role → s.userRoles user = some ur →
      assign_role s caller user n now = .error .accountAlreadyInUse) := by
  constructor
  · intro r hr hadm
    simp [create_role, hst, hadm, hr]
  · intro role ur hr hu
    simp [assign_role, hst, hr, hu]

/-- C5 witness: on the demo chain, re-creating the moderator role and
re-assigning user 5 both hit the key-conflict error. -/
theorem uniqueness_key_conflicts_witness :
    create_role demoChain 1 "moderator" [] 0 = .error .accountAlreadyInUse ∧
    assign_role demoChain 1 5 "moderator" 0 = .error .accountAlreadyInUse :=
  ⟨(uniqueness_key_conflicts demoChain
      { admin := 1, role_count := 2, user_count := 1 } 1 5 "moderator" [] 0
      rfl).1 demoRole rfl rfl,
   (uniqueness_key_conflicts demoChain
      { admin := 1, role_count := 2, user_count := 1 } 1 5 "moderator" [] 0
      rfl).2 demoRole demoUR rfl rfl⟩

/-- C6: with admin caller and a fresh name, create_role fails with
RoleNameTooLong exactly when the name is longer than 32 bytes (Rust
String::len counts UTF-8 bytes), and succeeds, inserting the role and
bumping role_count, whenever the length is at most 32. -/
theorem createRole_length_bound (s : Chain) (st : RbacState)
    (caller : Identity) (n : String) (ps : List Permission) (now : Int)
    (hst : s.rbac = some st) (hadm : caller = st.admin)
    (hfresh : s.roles n = none) :
    (create_role s caller n ps now = .error (.rbac .RoleNameTooLong) ↔
      32 < n.utf8ByteSize) ∧
    (n.utf8ByteSize ≤ 32 →
      create_role s caller n ps now =
        .ok ({ s with
                rbac := some { st with role_count := u32wrap (st.role_count + 1) },
                roles := fun m => if m = n then
                  some { name := n, permissions := ps, created_at := now }
                  else s.roles m },
             [Event.RoleCreated n ps now])) := by
  constructor
  · constructor
    · intro h
      by_contra hlt
      push_neg at hlt
      simp [create_role, hst, hadm, hfresh, hlt] at h
    · intro h
      have hn : ¬ n.utf8ByteSize ≤ 32 := Nat.not_le.mpr h
      simp [create_role, hst, hadm, hfresh, hn]
  · intro h
    simp [create_role, hst, hadm, hfresh, h]

/-- C6 witness: a 33-byte name is rejected with RoleNameTooLong and a
32-byte name passes the length check, both instantiated on the demo
chain with the admin caller. -/
theorem createRole_length_bound_witness :
    (create_role demoChain 1 longName [] 0 = .error (.rbac .RoleNameTooLong) ↔
      32 < longName.utf8ByteSize) ∧
    32 < longName.utf8ByteSize ∧
    (name32.utf8ByteSize ≤ 32 →
      create_role demoChain 1 name32 [] 0 =
        .ok ({ demoChain with
                rbac := some { admin := 1, role_count := u32wrap 3, user_count := 1 },
                roles := fun m => if m = name32 then
                  some { name := name32, permissions := [], created_at := 0 }
                  else demoChain.roles m },
             [Event.RoleCreated name32 [] 0])) :=
  ⟨(createRole_length_bound demoChain
      { admin := 1, role_count := 2, user_count := 1 } 1 longName [] 0
      rfl rfl (by decide)).1,
   by decide,
   (createRole_length_bound demoChain
      { admin := 1, role_count := 2, user_count := 1 } 1 name32 [] 0
      rfl rfl (by decide)).2⟩

/-- Chain with the assignment of the given user removed, exactly the
post-state the close = authority constraint of RevokeRole produces. -/
def eraseAssignment (s : Chain) (user : Identity) : Chain :=
  { s with userRoles := fun v => if v = user then none else s.userRoles v }

/-- C7: when an assignment for the user exists, revoke_role deletes
exactly that record, returns the backing resource to the caller (the
third component of the result), emits one RoleRevoked event, and leaves
the rbac_state singleton (hence user_count), the role store and every
other assignment unchanged. -/
theorem revokeRole_frame (s : Chain) (caller user : Identity) (now : Int)
    (ur : UserRole) (hur : s.userRoles user = some ur) :
    revoke_role s caller user now =
      .ok (eraseAssignment s user, [Event.RoleRevoked user caller now], caller) ∧
    (eraseAssignment s user).rbac = s.rbac ∧
    (eraseAssignment s user).roles = s.roles ∧
    (eraseAssignment s user).userRoles user = none ∧
    ∀ v, v ≠ user → (eraseAssignment s user).userRoles v = s.userRoles v := by
  refine ⟨by simp [revoke_role, hur, eraseAssignment], rfl, rfl,
    by simp [eraseAssignment], ?_⟩
  intro v hv
  simp [eraseAssignment, hv]

/-- C7 witness: concrete revocation of user 5 by caller 1 on the demo
chain. -/
theorem revokeRole_frame_witness :
    revoke_role demoChain 1 5 0 =
      .ok (eraseAssignment demoChain 5, [Event.RoleRevoked 5 1 0], 1) ∧
    (eraseAssignment demoChain 5).rbac = demoChain.rbac ∧
    (eraseAssignment demoChain 5).roles = demoChain.roles ∧
    (eraseAssignment demoChain 5).userRoles 5 = none ∧
    ∀ v, v ≠ 5 → (eraseAssignment demoChain 5).userRoles v =
      demoChain.userRoles v :=
  revokeRole_frame demoChain 1 5 0 demoUR rfl

/-- C8: every successful check_permission call returns the pre-state
unchanged (no account of CheckPermission is mutable) and emits exactly
one PermissionChecked event, carrying the user argument, the queried
permission, the timestamp, and a result field equal to the returned
boolean. -/
theorem checkPermission_audit (s : Chain) (tu u : Identity) (p : Permission)
    (now : Int) (ur : UserRole) (role : Role)
    (hur : s.userRoles tu = some ur) (hrole : s.roles ur.role = some role)
    (hname : ur.role = role.name) :
    check_permission s tu u p now =
      .ok (s, [Event.PermissionChecked u p (role.permissions.contains p) now],
           role.permissions.contains p) := by
  have hrole' : s.roles role.name = some role := by rw [← hname]; exact hrole
  simp [check_permission, hur, hname, hrole']

/-- C8 witness: concrete check on the demo chain, assignment record of
user 5 queried with user argument 9 and permission Delete. -/
theorem checkPermission_audit_witness :
    check_permission demoChain 5 9 .Delete 0 =
      .ok (demoChain,
           [Event.PermissionChecked 9 .Delete (demoRole.permissions.contains .Delete) 0],
           demoRole.permissions.contains .Delete) :=
  checkPermission_audit demoChain 5 9 .Delete 0 demoUR demoRole rfl rfl rfl

/-- C9: the decision and post-state of check_permission do not depend on
its user argument: for the same assignment record and any two user
arguments, the error-or-(state, boolean) outcome is identical, because
the user argument is never compared against the stored assignment and
flows only into the emitted event. -/
theorem checkPermission_user_noninterference (s : Chain) (tu u₁ u₂ : Identity)
    (p : Permission) (now : Int) :
    check_permission_result s tu u₁ p now =
      check_permission_result s tu u₂ p now := by
  cases hur : s.userRoles tu with
  | none => simp [check_permission_result, check_permission, hur]
  | some ur =>
    cases hrole : s.roles ur.role with
    | none => simp [check_permission_result, check_permission, hur, hrole]
    | some role =>
      by_cases h : ur.role = role.name
      · have hrole' : s.roles role.name = some role := by rw [← h]; exact hrole
        simp [check_permission_result, check_permission, hur, h, hrole',
          Except.map]
      · simp [check_permission_result, check_permission, hur, hrole, h]

/-- Invariant: every role stored in the chain has its name field equal
to the key (PDA seed string) under which it is stored. -/
def RolesNamedByKey (s : Chain) : Prop :=
  ∀ n r, s.roles n = some r → r.name = n

/-- Role records are never modified or deleted by any step: whatever the
role store maps a key to before a successful instruction, it still maps
it to afterwards. -/
theorem step_roles_mono {s s' : Chain} (h : Step s s') (n : String) (r : Role)
    (hr : s.roles n = some r) : s'.roles n = some r := by
  cases h with
  | initStep c now evs he =>
    cases hb : s.rbac with
    | some st => simp [initRbac, hb] at he
    | none =>
      simp [initRbac, hb] at he
      obtain ⟨h1, h2⟩ := he
      subst h1
      exact hr
  | createRole c n0 ps now evs he =>
    cases hb : s.rbac with
    | none => simp [create_role, hb] at he
    | some st =>
      by_cases hc : c = st.admin
      · cases hrn : s.roles n0 with
        | some r0 => simp [create_role, hb, hc, hrn] at he
        | none =>
          by_cases hlen : n0.utf8ByteSize ≤ 32
          · simp [create_role, hb, hc, hrn, hlen] at he
            obtain ⟨h1, h2⟩ := he
            subst h1
            show (fun m => if m = n0 then _ else s.roles m) n = some r
            by_cases hn : n = n0
            · rw [hn] at hr
              rw [hr] at hrn
              cases hrn
            · simp only [hn, if_false]
              exact hr
          · simp [create_role, hb, hc, hrn, hlen] at he
      · simp [create_role, hb, hc] at he
  | assignRole c u n0 now evs he =>
    cases hb : s.rbac with
    | none => simp [assign_role, hb] at he
    | some st =>
      cases hrn : s.roles n0 with
      | none => simp [assign_role, hb, hrn] at he
      | some role =>
        cases hu : s.userRoles u with
        | some ur => simp [assign_role, hb, hrn, hu] at he
        | none =>
          by_cases hnm : role.name = n0
          · simp [assign_role, hb, hrn, hu, hnm] at he
            obtain ⟨h1, h2⟩ := he
            subst h1
            exact hr
          · simp [assign_role, hb, hrn, hu, hnm] at he
  | checkPermission tu u p now evs b he =>
    cases hu : s.userRoles tu with
    | none => simp [check_permission, hu] at he
    | some ur =>
      cases hrn : s.roles ur.role with
      | none => simp [check_permission, hu, hrn] at he
      | some role =>
        by_cases hnm : ur.role = role.name
        · have hrn' : s.roles role.name = some role := by rw [← hnm]; exact hrn
          simp [check_permission, hu, hnm, hrn'] at he
          obtain ⟨h1, h2, h3⟩ := he
          subst h1
          exact hr
        · simp [check_permission, hu, hrn, hnm] at he
  | revokeRole c u now evs rcp he =>
    cases hu : s.userRoles u with
    | none => simp [revoke_role, hu] at he
    | some ur =>
      simp [revoke_role, hu] at he
      obtain ⟨h1, h2, h3⟩ := he
      subst h1
      exact hr
  | executeAction c a now evs he =>
    cases hb : s.rbac with
    | none => simp [execute_action, hb] at he
    | some st =>
      cases hu : s.userRoles c with
      | none => simp [execute_action, hb, hu] at he
      | some ur =>
        cases hrn : s.roles ur.role with
        | none => simp [execute_action, hb, hu, hrn] at he
        | some role =>
          by_cases hnm : ur.role = role.name
          · have hrn' : s.roles role.name = some role := by rw [← hnm]; exact hrn
            by_cases hp : requiredPermission a ∈ role.permissions
            · simp [execute_action, hb, hu, hnm, hrn', hp] at he
              obtain ⟨h1, h2⟩ := he
              subst h1
              exact hr
            · simp [execute_action, hb, hu, hnm, hrn', hp] at he
          · simp [execute_action, hb, hu, hrn, hnm] at he

/-- Inversion of the role store across a step: a role present after a
successful instruction was either already present, or is the fresh
record written by create_role, whose name is the store key. -/
theorem step_roles_inv {s s' : Chain} (h : Step s s') (n : String) (r : Role)
    (hr : s'.roles n = some r) : s.roles n = some r ∨ r.name = n := by
  cases h with
  | initStep c now evs he =>
    cases hb : s.rbac with
    | some st => simp [initRbac, hb] at he
    | none =>
      simp [initRbac, hb] at he
      obtain ⟨h1, h2⟩ := he
      subst h1
      exact Or.inl hr
  | createRole c n0 ps now evs he =>
    cases hb : s.rbac with
    | none => simp [create_role, hb] at he
    | some st =>
      by_cases hc : c = st.admin
      · cases hrn : s.roles n0 with
        | some r0 => simp [create_role, hb, hc, hrn] at he
        | none =>
          by_cases hlen : n0.utf8ByteSize ≤ 32
          · simp [create_role, hb, hc, hrn, hlen] at he
            obtain ⟨h1, h2⟩ := he
            subst h1
            by_cases hn : n = n0
            · right
              simp only [hn, if_pos rfl] at hr
              cases hr
              simp [hn]
            · left
              simpa [hn] using hr
          · simp [create_role, hb, hc, hrn, hlen] at he
      · simp [create_role, hb, hc] at he
  | assignRole c u n0 now evs he =>
    cases hb : s.rbac with
    | none => simp [assign_role, hb] at he
    | some st =>
      cases hrn : s.roles n0 with
      | none => simp [assign_role, hb, hrn] at he
      | some role =>
        cases hu : s.userRoles u with
        | some ur => simp [assign_role, hb, hrn, hu] at he
        | none =>
          by_cases hnm : role.name = n0
          · simp [assign_role, hb, hrn, hu, hnm] at he
            obtain ⟨h1, h2⟩ := he
            subst h1
            exact Or.inl hr
          · simp [assign_role, hb, hrn, hu, hnm] at he
  | checkPermission tu u p now evs b he =>
    cases hu : s.userRoles tu with
    | none => simp [check_permission, hu] at he
    | some ur =>
      cases hrn : s.roles ur.role with
      | none => simp [check_permission, hu, hrn] at he
      | some role =>
        by_cases hnm : ur.role = role.name
        · have hrn' : s.roles role.name = some role := by rw [← hnm]; exact hrn
          simp [check_permission, hu, hnm, hrn'] at he
          obtain ⟨h1, h2, h3⟩ := he
          subst h1
          exact Or.inl hr
        · simp [check_permission, hu, hrn, hnm] at he
  | revokeRole c u now evs rcp he =>
    cases hu : s.userRoles u with
    | none => simp [revoke_role, hu] at he
    | some ur =>
      simp [revoke_role, hu] at he
      obtain ⟨h1, h2, h3⟩ := he
      subst h1
      exact Or.inl hr
  | executeAction c a now evs he =>
    cases hb : s.rbac with
    | none => simp [execute_action, hb] at he
    | some st =>
      cases hu : s.userRoles c with
      | none => simp [execute_action, hb, hu] at he
      | some ur =>
        cases hrn : s.roles ur.role with
        | none => simp [execute_action, hb, hu, hrn] at he
        | some role =>
          by_cases hnm : ur.role = role.name
          · have hrn' : s.roles role.name = some role := by rw [← hnm]; exact hrn
            by_cases hp : requiredPermission a ∈ role.permissions
            · simp [execute_action, hb, hu, hnm, hrn', hp] at he
              obtain ⟨h1, h2⟩ := he
              subst h1
              exact Or.inl hr
            · simp [execute_action, hb, hu, hnm, hrn', hp] at he
          · simp [execute_action, hb, hu, hrn, hnm] at he

/-- Every reachable chain satisfies the name-equals-key invariant of the
role store. -/
theorem reachable_rolesNamedByKey {s : Chain} (h : Reachable s) :
    RolesNamedByKey s := by
  induction h with
  | start =>
    intro n r hr
    cases hr
  | step _ hstep ih =>
    intro n r hr
    cases step_roles_inv hstep n r hr with
    | inl hold => exact ih n r hold
    | inr hnew => exact hnew

/-- C10: in every chain reachable through the public instructions, each
stored role's name equals its store key, no step ever changes or removes
a stored role, and therefore the UserRoleMismatch branches of
check_permission and execute_action can never be taken: the assignment's
stored role string is the key the role was fetched under, and that
role's name always equals the key. -/
theorem roles_named_and_mismatch_unreachable (s s' : Chain)
    (h : Reachable s) :
    (∀ n r, s.roles n = some r → r.name = n) ∧
    (Step s s' → ∀ n r, s.roles n = some r → s'.roles n = some r) ∧
    (∀ tu u p now, check_permission s tu u p now ≠
      .error (.rbac .UserRoleMismatch)) ∧
    (∀ c a now, execute_action s c a now ≠
      .error (.rbac .UserRoleMismatch)) := by
  refine ⟨reachable_rolesNamedByKey h,
    fun hst n r => step_roles_mono hst n r, ?_, ?_⟩
  · intro tu u p now
    cases hur : s.userRoles tu with
    | none => simp [check_permission, hur]
    | some ur =>
      cases hrole : s.roles ur.role with
      | none => simp [check_permission, hur, hrole]
      | some role =>
        have hnm : role.name = ur.role :=
          reachable_rolesNamedByKey h ur.role role hrole
        simp [check_permission, hur, hrole, hnm]
  · intro c a now
    cases hb : s.rbac with
    | none => simp [execute_action, hb]
    | some st =>
      cases hur : s.userRoles c with
      | none => simp [execute_action, hb, hur]
      | some ur =>
        cases hrole : s.roles ur.role with
        | none => simp [execute_action, hb, hur, hrole]
        | some role =>
          have hnm : role.name = ur.role :=
            reachable_rolesNamedByKey h ur.role role hrole
          by_cases hp : requiredPermission a ∈ role.permissions <;>
            simp [execute_action, hb, hur, hrole, hnm, hp]

/-- Chain after initialization by identity 7: the concrete post-state of
a successful run of the initialization instruction on the empty chain. -/
def chain1 : Chain :=
  { emptyChain with rbac := some { admin := 7, role_count := 1, user_count := 0 } }

/-- Chain after the admin (identity 7) creates the moderator role on
chain1: the concrete post-state of that create_role call. -/
def chain2 : Chain :=
  { chain1 with
      rbac := some { admin := 7, role_count := u32wrap 2, user_count := 0 },
      roles := fun m => if m = "moderator" then some demoRole else chain1.roles m }

/-- C10 witness: the invariant instantiated at the concrete reachable
chain obtained by initialization followed by one create_role, with the
reachability hypothesis discharged by the explicit two-step run. -/
theorem roles_named_and_mismatch_unreachable_witness :
    (∀ n r, chain2.roles n = some r → r.name = n) ∧
    (Step chain2 chain2 →
      ∀ n r, chain2.roles n = some r → chain2.roles n = some r) ∧
    (∀ tu u p now, check_permission chain2 tu u p now ≠
      .error (.rbac .UserRoleMismatch)) ∧
    (∀ c a now, execute_action chain2 c a now ≠
      .error (.rbac .UserRoleMismatch)) :=
  roles_named_and_mismatch_unreachable chain2 chain2
    (Reachable.step
      (Reachable.step Reachable.start
        (Step.initStep emptyChain chain1 7 0 [Event.RbacStarted 7 0] rfl))
      (Step.createRole chain1 chain2 7 "moderator" [.Read, .Update] 0
        [Event.RoleCreated "moderator" [.Read, .Update] 0] rfl))

end Rbac
